import Mathlib

/-!
# Git command builders (go-utils/command/git/commands.go)

Shallow embedding of the 26 builder methods of the vendored package
github.com/bitrise-io/go-utils/command/git.

Every method of the source assembles a slice of strings and hands it to the
receiver's helper `g.command`, whose body and whose receiver type `Git` are
declared in another file of the package.  Both are therefore parameters of the
embedding:

* `G` is the type of the receiver,
* `C` is the type of the returned command object,
* `command : G → List String → C` is the helper `g.command(args...)`.

For the properties that speak about the receiver's state (what a call leaves of
it, and what a later call sees of it) the helper is taken in state-passing form,
`G → List String → C × G`: it returns the receiver as it leaves it.  The concrete
`Git`, `Command` and `command` below are modelled from the specification's data model.

A Go `[]string` is a `List String`; `append(args, opts...)` on a freshly built
slice is list concatenation `args ++ opts`; `"--format=" + format` is string
concatenation.
-/

set_option linter.dupNamespace false

namespace Git

section Builders

variable {G C : Type}

/-- Init: `g.command("init")`. -/
def Init (command : G → List String → C) (g : G) : C :=
  command g ["init"]

/-- Clone: `g.command("clone", repo, ".")`. -/
def Clone (command : G → List String → C) (g : G) (repo : String) : C :=
  command g ["clone", repo, "."]

/-- CloneTagOrBranch: `g.command("clone", "--recursive", "--branch", tagOrBranch, repo, ".")`. -/
def CloneTagOrBranch (command : G → List String → C) (g : G)
    (repo tagOrBranch : String) : C :=
  command g ["clone", "--recursive", "--branch", tagOrBranch, repo, "."]

/-- RemoteList: `g.command("remote", "-v")`. -/
def RemoteList (command : G → List String → C) (g : G) : C :=
  command g ["remote", "-v"]

/-- RemoteAdd: `g.command("remote", "add", name, url)`. -/
def RemoteAdd (command : G → List String → C) (g : G) (name url : String) : C :=
  command g ["remote", "add", name, url]

/-- Fetch: `args := []string{"fetch"}; args = append(args, opts...)`. -/
def Fetch (command : G → List String → C) (g : G) (opts : List String) : C :=
  let args := ["fetch"]
  let args := args ++ opts
  command g args

/-- Checkout: `g.command("checkout", arg)`. -/
def Checkout (command : G → List String → C) (g : G) (arg : String) : C :=
  command g ["checkout", arg]

/-- Merge: `g.command("merge", arg)`. -/
def Merge (command : G → List String → C) (g : G) (arg : String) : C :=
  command g ["merge", arg]

/-- Reset: `g.command("reset", mode, commit)`. -/
def Reset (command : G → List String → C) (g : G) (mode commit : String) : C :=
  command g ["reset", mode, commit]

/-- Clean: `args := []string{"clean"}; args = append(args, options...)`. -/
def Clean (command : G → List String → C) (g : G) (options : List String) : C :=
  let args := ["clean"]
  let args := args ++ options
  command g args

/-- SubmoduleUpdate: the four fixed arguments, then `append(args, opts...)`. -/
def SubmoduleUpdate (command : G → List String → C) (g : G) (opts : List String) : C :=
  let args := ["submodule", "update", "--init", "--recursive"]
  let args := args ++ opts
  command g args

/-- SubmoduleForeach: `a := []string{"submodule", "foreach"}; a = append(a, args...)`. -/
def SubmoduleForeach (command : G → List String → C) (g : G) (args : List String) : C :=
  let a := ["submodule", "foreach"]
  let a := a ++ args
  command g a

/-- Pull: `g.command("pull")`. -/
def Pull (command : G → List String → C) (g : G) : C :=
  command g ["pull"]

/-- Add: `g.command("add", pathspec)`. -/
def Add (command : G → List String → C) (g : G) (pathspec : String) : C :=
  command g ["add", pathspec]

/-- Branch: `args := append([]string{"branch"}, opts...)`. -/
def Branch (command : G → List String → C) (g : G) (opts : List String) : C :=
  let args := ["branch"] ++ opts
  command g args

/-- NewBranch: `g.command("checkout", "-b", branch)`. -/
def NewBranch (command : G → List String → C) (g : G) (branch : String) : C :=
  command g ["checkout", "-b", branch]

/-- Apply: `g.command("apply", "--index", patch)`. -/
def Apply (command : G → List String → C) (g : G) (patch : String) : C :=
  command g ["apply", "--index", patch]

/-- Log: `args := []string{"log", "-1", "--format=" + format}`, then `append(args, opts...)`. -/
def Log (command : G → List String → C) (g : G) (format : String) (opts : List String) : C :=
  let args := ["log", "-1", "--format=" ++ format]
  let args := args ++ opts
  command g args

/-- RevList: `args := []string{"rev-list", commit}`, then `append(args, opts...)`. -/
def RevList (command : G → List String → C) (g : G) (commit : String)
    (opts : List String) : C :=
  let args := ["rev-list", commit]
  let args := args ++ opts
  command g args

/-- Push: `g.command("push", "-u", "origin", branch)`. -/
def Push (command : G → List String → C) (g : G) (branch : String) : C :=
  command g ["push", "-u", "origin", branch]

/-- Commit: `g.command("commit", "-m", message)`. -/
def Commit (command : G → List String → C) (g : G) (message : String) : C :=
  command g ["commit", "-m", message]

/-- RevParse: `g.command("rev-parse", arg)`. -/
def RevParse (command : G → List String → C) (g : G) (arg : String) : C :=
  command g ["rev-parse", arg]

/-- Status: `args := []string{"status"}; args = append(args, opts...)`. -/
def Status (command : G → List String → C) (g : G) (opts : List String) : C :=
  let args := ["status"]
  let args := args ++ opts
  command g args

/-- Config: `args := []string{"config", key, value}`, then `append(args, opts...)`. -/
def Config (command : G → List String → C) (g : G) (key value : String)
    (opts : List String) : C :=
  let args := ["config", key, value]
  let args := args ++ opts
  command g args

/-- SparseCheckoutInit: `args := []string{"sparse-checkout", "init"}`, and
`args = append(args, "--cone")` under `if cone`. -/
def SparseCheckoutInit (command : G → List String → C) (g : G) (cone : Bool) : C :=
  let args := ["sparse-checkout", "init"]
  let args := if cone then args ++ ["--cone"] else args
  command g args

/-- SparseCheckoutSet: `args := []string{"sparse-checkout", "set"}`, then
`append(args, opts...)`. -/
def SparseCheckoutSet (command : G → List String → C) (g : G) (opts : List String) : C :=
  let args := ["sparse-checkout", "set"]
  let args := args ++ opts
  command g args

/-- Observer for the helper: instantiating `command` with `recordArgs` makes a
builder return exactly the argument list it hands to `g.command`. -/
def recordArgs (_g : G) (args : List String) : List String := args

end Builders

/-- One call of the interface: which of the 26 methods, with its inputs. -/
inductive Call where
  | init
  | clone (repo : String)
  | cloneTagOrBranch (repo tagOrBranch : String)
  | remoteList
  | remoteAdd (name url : String)
  | fetch (opts : List String)
  | checkout (arg : String)
  | merge (arg : String)
  | reset (mode commit : String)
  | clean (options : List String)
  | submoduleUpdate (opts : List String)
  | submoduleForeach (args : List String)
  | pull
  | add (pathspec : String)
  | branch (opts : List String)
  | newBranch (branch : String)
  | apply (patch : String)
  | log (format : String) (opts : List String)
  | revList (commit : String) (opts : List String)
  | push (branch : String)
  | commit (message : String)
  | revParse (arg : String)
  | status (opts : List String)
  | config (key value : String) (opts : List String)
  | sparseCheckoutInit (cone : Bool)
  | sparseCheckoutSet (opts : List String)
  deriving DecidableEq, Repr

/-- Performs a call: dispatches to the builder method the call names. -/
def invoke {G C : Type} (command : G → List String → C) (g : G) : Call → C
  | .init => Init command g
  | .clone repo => Clone command g repo
  | .cloneTagOrBranch repo tagOrBranch => CloneTagOrBranch command g repo tagOrBranch
  | .remoteList => RemoteList command g
  | .remoteAdd name url => RemoteAdd command g name url
  | .fetch opts => Fetch command g opts
  | .checkout arg => Checkout command g arg
  | .merge arg => Merge command g arg
  | .reset mode commit => Reset command g mode commit
  | .clean options => Clean command g options
  | .submoduleUpdate opts => SubmoduleUpdate command g opts
  | .submoduleForeach args => SubmoduleForeach command g args
  | .pull => Pull command g
  | .add pathspec => Add command g pathspec
  | .branch opts => Branch command g opts
  | .newBranch branch => NewBranch command g branch
  | .apply patch => Apply command g patch
  | .log format opts => Log command g format opts
  | .revList commit opts => RevList command g commit opts
  | .push branch => Push command g branch
  | .commit message => Commit command g message
  | .revParse arg => RevParse command g arg
  | .status opts => Status command g opts
  | .config key value opts => Config command g key value opts
  | .sparseCheckoutInit cone => SparseCheckoutInit command g cone
  | .sparseCheckoutSet opts => SparseCheckoutSet command g opts

/-- The subcommand the contract table documents for each operation (written
from the specification's table, to be compared with what the builders emit). -/
def documentedSubcommand : Call → String
  | .init => "init"
  | .clone _ => "clone"
  | .cloneTagOrBranch _ _ => "clone"
  | .remoteList => "remote"
  | .remoteAdd _ _ => "remote"
  | .fetch _ => "fetch"
  | .checkout _ => "checkout"
  | .newBranch _ => "checkout"
  | .merge _ => "merge"
  | .reset _ _ => "reset"
  | .clean _ => "clean"
  | .submoduleUpdate _ => "submodule"
  | .submoduleForeach _ => "submodule"
  | .pull => "pull"
  | .add _ => "add"
  | .branch _ => "branch"
  | .apply _ => "apply"
  | .log _ _ => "log"
  | .revList _ _ => "rev-list"
  | .push _ => "push"
  | .commit _ => "commit"
  | .revParse _ => "rev-parse"
  | .status _ => "status"
  | .config _ _ _ => "config"
  | .sparseCheckoutInit _ => "sparse-checkout"
  | .sparseCheckoutSet _ => "sparse-checkout"

/-- The last `n` elements of an argument list. -/
def lastArgs (n : Nat) (args : List String) : List String :=
  args.drop (args.length - n)

/-- The string literals that occur in the bodies of the 26 builders. -/
def fixedWords : List String :=
  ["init", "clone", ".", "--recursive", "--branch", "remote", "-v", "add", "fetch",
   "checkout", "merge", "reset", "clean", "submodule", "update", "--init", "foreach",
   "pull", "branch", "-b", "apply", "--index", "log", "-1", "rev-list", "push", "-u",
   "origin", "commit", "-m", "rev-parse", "status", "config", "sparse-checkout", "--cone",
   "set"]

/-- The strings a caller supplies with a call: its string parameters and its
variadic options. -/
def callerStrings : Call → List String
  | .init => []
  | .clone repo => [repo]
  | .cloneTagOrBranch repo tagOrBranch => [repo, tagOrBranch]
  | .remoteList => []
  | .remoteAdd name url => [name, url]
  | .fetch opts => opts
  | .checkout arg => [arg]
  | .merge arg => [arg]
  | .reset mode commit => [mode, commit]
  | .clean options => options
  | .submoduleUpdate opts => opts
  | .submoduleForeach args => args
  | .pull => []
  | .add pathspec => [pathspec]
  | .branch opts => opts
  | .newBranch branch => [branch]
  | .apply patch => [patch]
  | .log format opts => format :: opts
  | .revList commit opts => commit :: opts
  | .push branch => [branch]
  | .commit message => [message]
  | .revParse arg => [arg]
  | .status opts => opts
  | .config key value opts => key :: value :: opts
  | .sparseCheckoutInit _ => []
  | .sparseCheckoutSet opts => opts

/-- Modelled from the spec: the Git context, the receiver type `Git` of the
methods, declared outside commands.go. Per the data model it holds the working
directory against which all commands are scoped. -/
structure Git where
  dir : String
  deriving DecidableEq, Repr

/-- Modelled from the spec: the command object `command.Command`, declared outside
this package: a binary name and an ordered argument list, bound to a working
directory. -/
structure Command where
  name : String
  args : List String
  dir : String
  deriving DecidableEq, Repr

/-- Modelled from the spec: the helper `g.command`, declared outside commands.go, in
state-passing form. It constructs a runnable unit bound to the binary git, the
argument list and the context's working directory, and returns it with the receiver,
which it leaves as it found it (the context is immutable after construction). -/
def command (g : Git) (args : List String) : Command × Git :=
  (Command.mk "git" args g.dir, g)

/-- The last `|opts|` elements of `pre ++ opts` are `opts`. -/
lemma lastArgs_append (pre opts : List String) :
    lastArgs opts.length (pre ++ opts) = opts := by
  simp [lastArgs]

/-- Whatever the helper `command` is, a call hands it exactly the list that the
observer `recordArgs` records. -/
lemma invoke_eq_command_recordArgs {G C : Type} (command : G → List String → C) (g : G)
    (c : Call) : invoke command g c = command g (invoke recordArgs g c) := by
  cases c <;> rfl

/-- Appending to a fixed string on the left can be undone. -/
lemma string_append_left_cancel (p a b : String) (h : p ++ a = p ++ b) : a = b := by
  have h2 := congrArg String.data h
  simp only [String.data_append] at h2
  exact String.ext (List.append_cancel_left h2)

/-- Two strings with the same left part are equal exactly when the right parts are. -/
lemma string_append_right_inj (p a b : String) : p ++ a = p ++ b ↔ a = b :=
  ⟨string_append_left_cancel p a b, fun h => by rw [h]⟩

/-- The list SparseCheckoutInit hands over, with the conditional moved to the tail. -/
lemma sparseCheckoutInit_recordArgs {G : Type} (g : G) (cone : Bool) :
    SparseCheckoutInit recordArgs g cone
      = "sparse-checkout" :: "init" :: (if cone then ["--cone"] else []) := by
  cases cone <;> rfl

/-! ## Variadic operations -/

/-- C1: for each of the ten variadic operations (Fetch, Clean, SubmoduleUpdate,
SubmoduleForeach, Branch, Log, RevList, Status, Config, SparseCheckoutSet) and every
option list, the list handed to the helper is the fixed prefix followed by the
caller's options, and its last `opts.length` elements are exactly the options, in the
caller's order. -/
theorem variadic_args_are_prefix_then_opts {G C : Type} (command : G → List String → C)
    (g : G) (format commit key value : String) (opts : List String) :
    (Fetch command g opts = command g (["fetch"] ++ opts)
      ∧ lastArgs opts.length (Fetch recordArgs g opts) = opts)
    ∧ (Clean command g opts = command g (["clean"] ++ opts)
      ∧ lastArgs opts.length (Clean recordArgs g opts) = opts)
    ∧ (SubmoduleUpdate command g opts
          = command g (["submodule", "update", "--init", "--recursive"] ++ opts)
      ∧ lastArgs opts.length (SubmoduleUpdate recordArgs g opts) = opts)
    ∧ (SubmoduleForeach command g opts = command g (["submodule", "foreach"] ++ opts)
      ∧ lastArgs opts.length (SubmoduleForeach recordArgs g opts) = opts)
    ∧ (Branch command g opts = command g (["branch"] ++ opts)
      ∧ lastArgs opts.length (Branch recordArgs g opts) = opts)
    ∧ (Log command g format opts = command g (["log", "-1", "--format=" ++ format] ++ opts)
      ∧ lastArgs opts.length (Log recordArgs g format opts) = opts)
    ∧ (RevList command g commit opts = command g (["rev-list", commit] ++ opts)
      ∧ lastArgs opts.length (RevList recordArgs g commit opts) = opts)
    ∧ (Status command g opts = command g (["status"] ++ opts)
      ∧ lastArgs opts.length (Status recordArgs g opts) = opts)
    ∧ (Config command g key value opts = command g (["config", key, value] ++ opts)
      ∧ lastArgs opts.length (Config recordArgs g key value opts) = opts)
    ∧ (SparseCheckoutSet command g opts = command g (["sparse-checkout", "set"] ++ opts)
      ∧ lastArgs opts.length (SparseCheckoutSet recordArgs g opts) = opts) :=
  ⟨⟨rfl, lastArgs_append _ _⟩, ⟨rfl, lastArgs_append _ _⟩, ⟨rfl, lastArgs_append _ _⟩,
   ⟨rfl, lastArgs_append _ _⟩, ⟨rfl, lastArgs_append _ _⟩, ⟨rfl, lastArgs_append _ _⟩,
   ⟨rfl, lastArgs_append _ _⟩, ⟨rfl, lastArgs_append _ _⟩, ⟨rfl, lastArgs_append _ _⟩,
   ⟨rfl, lastArgs_append _ _⟩⟩

/-! ## Subcommand -/

/-- C2: for every one of the 26 operations and every input, the list handed to the
helper is non-empty and its first element is the subcommand documented in the
contract table. -/
theorem first_arg_is_documented_subcommand {G C : Type} (command : G → List String → C)
    (g : G) (c : Call) :
    invoke command g c = command g (invoke recordArgs g c)
    ∧ invoke recordArgs g c ≠ []
    ∧ (invoke recordArgs g c).head? = some (documentedSubcommand c) := by
  refine ⟨invoke_eq_command_recordArgs command g c, ?_⟩
  cases c with
  | sparseCheckoutInit cone =>
    cases cone <;> simp [invoke, SparseCheckoutInit, recordArgs, documentedSubcommand]
  | _ =>
    simp [invoke, Init, Clone, CloneTagOrBranch, RemoteList, RemoteAdd, Fetch, Checkout,
      Merge, Reset, Clean, SubmoduleUpdate, SubmoduleForeach, Pull, Add, Branch, NewBranch,
      Apply, Log, RevList, Push, Commit, RevParse, Status, Config, SparseCheckoutSet,
      recordArgs, documentedSubcommand]

/-! ## Fixed-arity operations and individual rows of the contract table -/

/-- C3: CloneTagOrBranch hands the helper exactly the six arguments
clone, --recursive, --branch, tagOrBranch, repo and "." in that order (the ref before
the repository URL), as in the documented example. -/
theorem cloneTagOrBranch_args {G C : Type} (command : G → List String → C) (g : G)
    (repo tagOrBranch : String) :
    CloneTagOrBranch command g repo tagOrBranch
        = command g ["clone", "--recursive", "--branch", tagOrBranch, repo, "."]
    ∧ (CloneTagOrBranch recordArgs g repo tagOrBranch).length = 6
    ∧ (CloneTagOrBranch recordArgs g repo tagOrBranch)[3]? = some tagOrBranch
    ∧ (CloneTagOrBranch recordArgs g repo tagOrBranch)[4]? = some repo
    ∧ CloneTagOrBranch recordArgs g "https://x/y.git" "v1.0"
        = ["clone", "--recursive", "--branch", "v1.0", "https://x/y.git", "."] :=
  ⟨rfl, rfl, rfl, rfl, rfl⟩

/-- C4: SparseCheckoutInit hands the helper sparse-checkout, init, --cone when cone
is true and sparse-checkout, init when it is false; "--cone" is an element of the
list exactly when cone is true, and then it is the last element. -/
theorem sparseCheckoutInit_args {G C : Type} (command : G → List String → C) (g : G)
    (cone : Bool) :
    SparseCheckoutInit command g true = command g ["sparse-checkout", "init", "--cone"]
    ∧ SparseCheckoutInit command g false = command g ["sparse-checkout", "init"]
    ∧ ("--cone" ∈ SparseCheckoutInit recordArgs g cone ↔ cone = true)
    ∧ (SparseCheckoutInit recordArgs g true).getLast? = some "--cone" := by
  refine ⟨rfl, rfl, ?_, rfl⟩
  cases cone <;> simp [SparseCheckoutInit, recordArgs]

/-- C5: Config hands the helper config, key, value followed by the caller's options,
so the options come after the key and the value, as in the documented example. -/
theorem config_args {G C : Type} (command : G → List String → C) (g : G)
    (key value : String) (opts : List String) :
    Config command g key value opts = command g (["config", key, value] ++ opts)
    ∧ (Config recordArgs g key value opts).take 3 = ["config", key, value]
    ∧ (Config recordArgs g key value opts).drop 3 = opts
    ∧ Config recordArgs g "user.name" "Bot" ["--global"]
        = ["config", "user.name", "Bot", "--global"] :=
  ⟨rfl, rfl, rfl, rfl⟩

/-- C6: Commit hands the helper exactly the three arguments commit, -m and the
message; the message is one unmodified element, also when it holds spaces or quotes
or is empty. -/
theorem commit_args {G C : Type} (command : G → List String → C) (g : G)
    (message : String) :
    Commit command g message = command g ["commit", "-m", message]
    ∧ (Commit recordArgs g message).length = 3
    ∧ (Commit recordArgs g message)[2]? = some message
    ∧ Commit recordArgs g "fix: bug" = ["commit", "-m", "fix: bug"]
    ∧ Commit recordArgs g "say \"hi\" to all" = ["commit", "-m", "say \"hi\" to all"]
    ∧ Commit recordArgs g "" = ["commit", "-m", ""] :=
  ⟨rfl, rfl, rfl, rfl, rfl, rfl⟩

/-- C7: Log hands the helper log, -1 and the single argument made of "--format="
with the format appended, followed by the caller's options; the list has length
3 + opts.length. -/
theorem log_args {G C : Type} (command : G → List String → C) (g : G)
    (format : String) (opts : List String) :
    Log command g format opts = command g (["log", "-1", "--format=" ++ format] ++ opts)
    ∧ (Log recordArgs g format opts).length = 3 + opts.length
    ∧ (Log recordArgs g format opts)[2]? = some ("--format=" ++ format)
    ∧ (Log recordArgs g format opts).drop 3 = opts := by
  refine ⟨rfl, ?_, ?_, rfl⟩
  · simp [Log, recordArgs]
    omega
  · simp [Log, recordArgs]

/-- C8: SubmoduleUpdate hands the helper submodule, update, --init, --recursive
followed by the caller's options: the four fixed elements are at positions 0 to 3
whatever the options are, and an option repeating --init or --recursive is kept as an
extra element after them. -/
theorem submoduleUpdate_args {G C : Type} (command : G → List String → C) (g : G)
    (opts : List String) :
    SubmoduleUpdate command g opts
        = command g (["submodule", "update", "--init", "--recursive"] ++ opts)
    ∧ (SubmoduleUpdate recordArgs g opts).take 4
        = ["submodule", "update", "--init", "--recursive"]
    ∧ (SubmoduleUpdate recordArgs g opts).drop 4 = opts
    ∧ (SubmoduleUpdate recordArgs g opts).count "--init" = 1 + opts.count "--init"
    ∧ (SubmoduleUpdate recordArgs g opts).count "--recursive"
        = 1 + opts.count "--recursive"
    ∧ SubmoduleUpdate recordArgs g ["--recursive", "--init", "--init"]
        = ["submodule", "update", "--init", "--recursive", "--recursive", "--init", "--init"] := by
  refine ⟨rfl, rfl, rfl, ?_, ?_, rfl⟩
  · simp [SubmoduleUpdate, recordArgs, List.count_cons, Nat.add_comm]
  · simp [SubmoduleUpdate, recordArgs, List.count_cons, Nat.add_comm]

/-- C9: Reset hands the helper exactly reset, mode, commit for every pair of strings;
nothing is validated, so a mode outside --soft, --mixed, --hard, --merge, --keep (the
empty string included) is passed through unchanged, and the builder returns the
helper's command rather than a failure. -/
theorem reset_args {G C : Type} (command : G → List String → C) (g : G)
    (mode commit : String) :
    Reset command g mode commit = command g ["reset", mode, commit]
    ∧ (Reset recordArgs g mode commit)[1]? = some mode
    ∧ (Reset recordArgs g mode commit)[2]? = some commit
    ∧ Reset recordArgs g "" "HEAD" = ["reset", "", "HEAD"]
    ∧ Reset recordArgs g "--bogus" "" = ["reset", "--bogus", ""] :=
  ⟨rfl, rfl, rfl, rfl, rfl⟩

/-- C10: Clone hands the helper exactly clone, repo, ".": three elements, the last
one the literal ".", and the builder adds neither --recursive nor --branch (each is in
the list only when the caller's repo string is that very flag). -/
theorem clone_args {G C : Type} (command : G → List String → C) (g : G)
    (repo : String) :
    Clone command g repo = command g ["clone", repo, "."]
    ∧ (Clone recordArgs g repo).length = 3
    ∧ (Clone recordArgs g repo).getLast? = some "."
    ∧ ("--recursive" ∈ Clone recordArgs g repo ↔ repo = "--recursive")
    ∧ ("--branch" ∈ Clone recordArgs g repo ↔ repo = "--branch") := by
  refine ⟨rfl, rfl, rfl, ?_, ?_⟩
  · simp [Clone, recordArgs, eq_comm]
  · simp [Clone, recordArgs, eq_comm]

/-- C11: Push hands the helper exactly push, -u, origin and the branch: the remote
is always the literal origin and -u is always present, whatever the branch name is. -/
theorem push_args {G C : Type} (command : G → List String → C) (g : G)
    (branch : String) :
    Push command g branch = command g ["push", "-u", "origin", branch]
    ∧ (Push recordArgs g branch).length = 4
    ∧ (Push recordArgs g branch)[1]? = some "-u"
    ∧ (Push recordArgs g branch)[2]? = some "origin"
    ∧ (Push recordArgs g branch)[3]? = some branch
    ∧ Push recordArgs g "" = ["push", "-u", "origin", ""]
    ∧ Push recordArgs g "upstream main" = ["push", "-u", "origin", "upstream main"] :=
  ⟨rfl, rfl, rfl, rfl, rfl, rfl, rfl⟩

/-- C12: the remaining fixed-arity operations hand the helper exactly the lists of
the contract table: Init, Pull, RemoteList, RemoteAdd, Checkout, NewBranch, Merge, Add,
Apply and RevParse. -/
theorem fixed_arity_args {G C : Type} (command : G → List String → C) (g : G)
    (name url a b p : String) :
    Init command g = command g ["init"]
    ∧ Pull command g = command g ["pull"]
    ∧ RemoteList command g = command g ["remote", "-v"]
    ∧ RemoteAdd command g name url = command g ["remote", "add", name, url]
    ∧ Checkout command g a = command g ["checkout", a]
    ∧ NewBranch command g b = command g ["checkout", "-b", b]
    ∧ Merge command g a = command g ["merge", a]
    ∧ Add command g p = command g ["add", p]
    ∧ Apply command g p = command g ["apply", "--index", p]
    ∧ RevParse command g a = command g ["rev-parse", a]
    ∧ invoke recordArgs g (.remoteAdd name url) = ["remote", "add", name, url]
    ∧ invoke recordArgs g (.newBranch b) = ["checkout", "-b", b]
    ∧ invoke recordArgs g (.apply p) = ["apply", "--index", p] :=
  ⟨rfl, rfl, rfl, rfl, rfl, rfl, rfl, rfl, rfl, rfl, rfl, rfl, rfl⟩

/-! ## Properties of the whole interface -/

/-- C13: no builder can fail. The assembly is a total function to an argument list;
even with a helper that may itself fail, the result of a call is the helper's result on
that list, so the builder adds no failure of its own. Every element of the list is a
fixed word, a string of the caller unchanged, or (for Log only) the one concatenation
"--format=" with the format. Empty strings, whitespace and empty option lists are
handled like any other input. -/
theorem builders_never_fail {G E C : Type} (command : G → List String → Except E C)
    (g : G) (c : Call) :
    invoke command g c = command g (invoke recordArgs g c)
    ∧ (∀ a ∈ invoke recordArgs g c,
        a ∈ fixedWords ∨ a ∈ callerStrings c
          ∨ ∃ format opts, c = .log format opts ∧ a = "--format=" ++ format)
    ∧ invoke recordArgs g (.reset "" "") = ["reset", "", ""]
    ∧ invoke recordArgs g (.commit " two  words\t") = ["commit", "-m", " two  words\t"]
    ∧ invoke recordArgs g (.log "" []) = ["log", "-1", "--format="]
    ∧ invoke recordArgs g (.fetch []) = ["fetch"]
    ∧ invoke recordArgs g (.config "" " " ["", " "]) = ["config", "", " ", "", " "] := by
  refine ⟨invoke_eq_command_recordArgs command g c, ?_, rfl, rfl, rfl, rfl, rfl⟩
  intro a ha
  cases c with
  | sparseCheckoutInit cone =>
    cases cone <;>
      simp [invoke, SparseCheckoutInit, recordArgs] at ha <;>
      rcases ha with rfl | rfl | rfl <;> simp [fixedWords]
  | _ =>
    simp [invoke, Init, Clone, CloneTagOrBranch, RemoteList, RemoteAdd, Fetch, Checkout,
      Merge, Reset, Clean, SubmoduleUpdate, SubmoduleForeach, Pull, Add, Branch, NewBranch,
      Apply, Log, RevList, Push, Commit, RevParse, Status, Config, SparseCheckoutSet,
      recordArgs] at ha
    simp only [callerStrings, fixedWords, List.mem_cons, List.mem_singleton]
    aesop

/-- C15: the argument assembly is injective over the whole interface. Two calls that
hand the helper equal lists are the same operation with equal inputs. In particular
Checkout never collides with NewBranch, Clone never with CloneTagOrBranch,
SparseCheckoutInit never with SparseCheckoutSet, and the format and the options of Log
are determined by its list. -/
theorem call_args_injective {G : Type} (g₁ g₂ : G) (c₁ c₂ : Call)
    (h : invoke recordArgs g₁ c₁ = invoke recordArgs g₂ c₂) :
    c₁ = c₂
    ∧ (∀ x b : String, Checkout recordArgs g₁ x ≠ NewBranch recordArgs g₂ b)
    ∧ (∀ r r2 t : String, Clone recordArgs g₁ r ≠ CloneTagOrBranch recordArgs g₂ r2 t)
    ∧ (∀ (cone : Bool) (opts : List String),
        SparseCheckoutInit recordArgs g₁ cone ≠ SparseCheckoutSet recordArgs g₂ opts)
    ∧ (∀ (f f2 : String) (o o2 : List String),
        Log recordArgs g₁ f o = Log recordArgs g₂ f2 o2 → f = f2 ∧ o = o2) := by
  refine ⟨?_, ?_, ?_, ?_, ?_⟩
  · cases c₁ <;> cases c₂ <;>
      simp [invoke, Init, Clone, CloneTagOrBranch, RemoteList, RemoteAdd, Fetch, Checkout,
        Merge, Reset, Clean, SubmoduleUpdate, SubmoduleForeach, Pull, Add, Branch, NewBranch,
        Apply, Log, RevList, Push, Commit, RevParse, Status, Config, SparseCheckoutSet,
        sparseCheckoutInit_recordArgs, string_append_right_inj, recordArgs] at h ⊢ <;>
      first
        | exact h
        | exact ⟨h.2, h.1⟩
        | (rename_i x y; cases x <;> cases y <;> simp_all)
  · intro x b
    simp [Checkout, NewBranch, recordArgs]
  · intro r r2 t
    simp [Clone, CloneTagOrBranch, recordArgs]
  · intro cone opts
    simp [sparseCheckoutInit_recordArgs, SparseCheckoutSet, recordArgs]
  · intro f f2 o o2 hlog
    simpa [Log, recordArgs, string_append_right_inj] using hlog

/-- Witness of C15: two Log calls on different receivers with equal lists. -/
theorem call_args_injective_witness :
    invoke recordArgs "/repo/a" (Call.log "%H" ["HEAD"])
        = invoke recordArgs "/repo/b" (Call.log "%H" ["HEAD"])
    ∧ Call.log "%H" ["HEAD"] = Call.log "%H" ["HEAD"] :=
  ⟨rfl, (call_args_injective "/repo/a" "/repo/b" (Call.log "%H" ["HEAD"])
    (Call.log "%H" ["HEAD"]) rfl).1⟩

/-- C16: for every variadic operation the list has length p + opts.length, with p
the length of the fixed prefix (1 for Fetch, Clean, Branch, Status; 2 for
SubmoduleForeach, RevList, SparseCheckoutSet; 3 for Log, Config; 4 for
SubmoduleUpdate); without options the list is the fixed prefix, and an empty-string
option counts as one element. -/
theorem variadic_args_length {G : Type} (g : G) (format commit key value : String)
    (opts : List String) :
    ((Fetch recordArgs g opts).length = 1 + opts.length
      ∧ (Clean recordArgs g opts).length = 1 + opts.length
      ∧ (Branch recordArgs g opts).length = 1 + opts.length
      ∧ (Status recordArgs g opts).length = 1 + opts.length
      ∧ (SubmoduleForeach recordArgs g opts).length = 2 + opts.length
      ∧ (RevList recordArgs g commit opts).length = 2 + opts.length
      ∧ (SparseCheckoutSet recordArgs g opts).length = 2 + opts.length
      ∧ (Log recordArgs g format opts).length = 3 + opts.length
      ∧ (Config recordArgs g key value opts).length = 3 + opts.length
      ∧ (SubmoduleUpdate recordArgs g opts).length = 4 + opts.length)
    ∧ (Fetch recordArgs g [] = ["fetch"]
      ∧ Clean recordArgs g [] = ["clean"]
      ∧ Branch recordArgs g [] = ["branch"]
      ∧ Status recordArgs g [] = ["status"]
      ∧ SubmoduleForeach recordArgs g [] = ["submodule", "foreach"]
      ∧ RevList recordArgs g commit [] = ["rev-list", commit]
      ∧ SparseCheckoutSet recordArgs g [] = ["sparse-checkout", "set"]
      ∧ Log recordArgs g format [] = ["log", "-1", "--format=" ++ format]
      ∧ Config recordArgs g key value [] = ["config", key, value]
      ∧ SubmoduleUpdate recordArgs g [] = ["submodule", "update", "--init", "--recursive"])
    ∧ (Fetch recordArgs g [""] = ["fetch", ""]
      ∧ (Fetch recordArgs g ("" :: opts)).length = 1 + (1 + opts.length)
      ∧ (SubmoduleUpdate recordArgs g (opts ++ [""])).length = 4 + (opts.length + 1)) := by
  refine ⟨⟨?_, ?_, ?_, ?_, ?_, ?_, ?_, ?_, ?_, ?_⟩,
    ⟨rfl, rfl, rfl, rfl, rfl, rfl, rfl, rfl, rfl, rfl⟩, ⟨rfl, ?_, ?_⟩⟩
  all_goals
    simp [Fetch, Clean, Branch, Status, SubmoduleForeach, RevList, SparseCheckoutSet, Log,
      Config, SubmoduleUpdate, recordArgs]
  all_goals omega

end Git
